import Mathlib

/-!
Verification development for the video-meeting signaling server
(app/api/v1/video_meeting.py).

The Python module keeps all meeting state in memory: a process-wide map
from room id to Room, where each Room owns ordered dictionaries of
participants, waiting entrants and polls, plus chat history, whiteboard
strokes, breakout assignments and settings.  The WebSocket handler
video_meeting_ws reads messages in a loop and dispatches on the message
type, mutating the room and sending JSON messages out.

Shallow embedding conventions:
* Python dicts preserve insertion order; assignment to an existing key
  keeps its position.  They are embedded as association lists
  (List (String x value)) with dictGet / dictSet / dictPop below.
* Timestamps (datetime.utcnow().isoformat()) are embedded as Nat values
  supplied by the caller; only their identity/order matters.
* WebSocket handles are embedded as a three-state value: connected
  (client_state CONNECTED and send_json succeeds), broken (client_state
  CONNECTED but send_json raises), closed (client_state not CONNECTED,
  so the send is skipped and no exception is raised).
* Randomly generated ids (uuid4 prefixes) are inputs of the embedded
  operations.
* Outbound I/O is reified as a list of OutMsg values: one entry per
  broadcast invocation, one entry per successful point-to-point send,
  one entry per send_json on the handling connection, one entry per
  ws.close call on another participant.
-/

namespace VideoMeeting

/-- Ordered-dictionary lookup on an association list (Python d.get(k)). -/
def dictGet {α : Type} (d : List (String × α)) (k : String) : Option α :=
  match d with
  | [] => none
  | (k1, v) :: rest => if k1 = k then some v else dictGet rest k

/-- Ordered-dictionary assignment d[k] = v: replace in place if the key is
present (keeping its position), otherwise append at the end. -/
def dictSet {α : Type} (d : List (String × α)) (k : String) (v : α) :
    List (String × α) :=
  match d with
  | [] => [(k, v)]
  | (k1, v1) :: rest =>
    if k1 = k then (k1, v) :: rest else (k1, v1) :: dictSet rest k v

/-- Ordered-dictionary removal d.pop(k, None): drop the entry with key k.
On the key-unique dictionaries of this module this equals removing the
first occurrence. -/
def dictPop {α : Type} (d : List (String × α)) (k : String) :
    List (String × α) :=
  d.filter (fun kv => decide (kv.1 ≠ k))

/-- The keys of an ordered dictionary, in order. -/
def dictKeys {α : Type} (d : List (String × α)) : List String :=
  d.map Prod.fst

/-- State of one WebSocket handle, as observed by the send paths. -/
inductive WsState where
  | connected
  | broken
  | closed
deriving DecidableEq, Repr

/-- Participant.__init__: per-connection session state.  joined_at is the
construction-time timestamp; media flags start as in the source. -/
structure Participant where
  ws : WsState
  user_id : String
  display_name : String
  video_on : Bool := true
  audio_on : Bool := true
  screen_sharing : Bool := false
  hand_raised : Bool := false
  bg_blurred : Bool := false
  joined_at : Nat
  breakout_room : Option String := none
deriving DecidableEq, Repr

/-- The dictionary produced by Participant.to_dict. -/
structure PDict where
  user_id : String
  display_name : String
  video_on : Bool
  audio_on : Bool
  screen_sharing : Bool
  hand_raised : Bool
  bg_blurred : Bool
  is_host : Bool
  joined_at : Nat
  breakout_room : Option String
deriving DecidableEq, Repr

/-- Participant.to_dict(host_id). -/
def Participant.to_dict (p : Participant) (host_id : String) : PDict :=
  { user_id := p.user_id
    display_name := p.display_name
    video_on := p.video_on
    audio_on := p.audio_on
    screen_sharing := p.screen_sharing
    hand_raised := p.hand_raised
    bg_blurred := p.bg_blurred
    is_host := p.user_id = host_id
    joined_at := p.joined_at
    breakout_room := p.breakout_room }

/-- Poll.__init__: votes maps user_id to option_index; option_index comes
from client JSON, so it is an unconstrained integer. -/
structure Poll where
  poll_id : String
  question : String
  options : List String
  creator : String
  votes : List (String × Int) := []
  active : Bool := true
  created_at : Nat
deriving DecidableEq, Repr

/-- The vote_counts list computed inside Poll.to_dict: start from
[0] * len(options) and bump the slot of every in-range vote; out-of-range
indices are skipped. -/
def Poll.vote_counts (p : Poll) : List Nat :=
  p.votes.foldl
    (fun acc kv =>
      if 0 ≤ kv.2 ∧ kv.2 < (p.options.length : Int) then
        acc.set kv.2.toNat (acc.getD kv.2.toNat 0 + 1)
      else acc)
    (List.replicate p.options.length 0)

/-- The dictionary produced by Poll.to_dict. -/
structure PollDict where
  poll_id : String
  question : String
  options : List String
  vote_counts : List Nat
  total_votes : Nat
  active : Bool
  creator : String
  created_at : Nat
deriving DecidableEq, Repr

/-- Poll.to_dict. -/
def Poll.to_dict (p : Poll) : PollDict :=
  { poll_id := p.poll_id
    question := p.question
    options := p.options
    vote_counts := p.vote_counts
    total_votes := p.votes.length
    active := p.active
    creator := p.creator
    created_at := p.created_at }

/-- One entry of room.chat_history. -/
structure ChatMsg where
  user_id : String
  display_name : String
  message : String
  timestamp : Nat
  is_file : Bool
  file_name : Option String
  file_url : Option String
deriving DecidableEq, Repr

/-- One entry of room.whiteboard_strokes. -/
structure Stroke where
  user_id : String
  points : List (Int × Int)
  color : String
  width : Nat
  tool : String
deriving DecidableEq, Repr

/-- Room.__init__. -/
structure Room where
  room_id : String
  host_id : String
  title : String := "Video Meeting"
  participants : List (String × Participant) := []
  waiting_room : List (String × Participant) := []
  chat_history : List ChatMsg := []
  whiteboard_strokes : List Stroke := []
  polls : List (String × Poll) := []
  breakout_rooms : List (String × List String) := []
  locked : Bool := false
  waiting_room_enabled : Bool := false
  recording : Bool := false
  created_at : Nat := 0
deriving DecidableEq, Repr

/-- Room.get_participant_list. -/
def Room.get_participant_list (r : Room) : List PDict :=
  r.participants.map (fun kv => kv.2.to_dict r.host_id)

/-- One entry of Room.get_waiting_list. -/
structure WDict where
  user_id : String
  display_name : String
deriving DecidableEq, Repr

/-- Room.get_waiting_list. -/
def Room.get_waiting_list (r : Room) : List WDict :=
  r.waiting_room.map (fun kv =>
    { user_id := kv.2.user_id, display_name := kv.2.display_name })

/-- The dictionary produced by Room.get_settings. -/
structure Settings where
  locked : Bool
  waiting_room_enabled : Bool
  recording : Bool
  host_id : String
deriving DecidableEq, Repr

/-- Room.get_settings. -/
def Room.get_settings (r : Room) : Settings :=
  { locked := r.locked
    waiting_room_enabled := r.waiting_room_enabled
    recording := r.recording
    host_id := r.host_id }

/-- The JSON payloads the handler sends, one constructor per distinct
dictionary shape in the source, carrying the fields the source fills in.
Opaque client payloads (SDP offers, ICE candidates, emoji strings) are
carried as strings. -/
inductive Payload where
  | meetingLocked
  | waitingNotice
  | waitingRoomUpdate (waiting_list : List WDict)
  | roomJoined (user_id : String) (room_id : String) (title : String)
      (participants : List PDict) (chat_history : List ChatMsg)
      (whiteboard_strokes : List Stroke) (polls : List (String × PollDict))
      (settings : Settings) (is_host : Bool)
  | userJoined (user_id : String) (display_name : String)
      (participants : List PDict)
  | offerMsg (offer : String) (from_user : String) (display_name : String)
  | answerMsg (answer : String) (from_user : String)
  | iceMsg (candidate : String) (from_user : String)
  | chatEcho (m : ChatMsg)
  | mediaState (user_id : String) (video audio screen bg_blur : Option Bool)
  | handRaised (user_id : String) (display_name : String) (raised : Bool)
      (participants : List PDict)
  | reactionMsg (user_id : String) (display_name : String) (emoji : String)
  | hostMuteAll (participants : List PDict)
  | forceMute
  | removedNotice
  | userLeft (user_id : String) (display_name : String)
      (participants : List PDict)
  | settingsUpdate (settings : Settings)
  | admitted (room_id : String) (participants : List PDict)
      (chat_history : List ChatMsg) (whiteboard_strokes : List Stroke)
      (polls : List (String × PollDict)) (settings : Settings) (is_host : Bool)
  | rejectedNotice
  | allHandsLowered (participants : List PDict)
  | recordingState (recording : Bool)
  | meetingEnded
  | whiteboardStrokeMsg (s : Stroke)
  | whiteboardClearMsg
  | pollCreated (poll : PollDict)
  | pollUpdated (poll : PollDict)
  | pollEnded (poll : PollDict)
  | breakoutUpdate (breakout_rooms : List (String × List String))
      (participants : List PDict)
  | breakoutClosed (participants : List PDict)
  | hostChanged (new_host : String) (display_name : String)
      (participants : List PDict) (settings : Settings)
  | pong
deriving DecidableEq, Repr

/-- Reified outbound I/O:
broadcastMsg records one Room.broadcast invocation (payload plus the
excluded sender, delivery being best-effort per recipient);
sentTo records a Room.send_to invocation that actually delivered;
reply records a send_json on the connection being handled;
closeConn records a ws.close on some other participant or entrant. -/
inductive OutMsg where
  | broadcastMsg (m : Payload) (exclude : Option String)
  | sentTo (target : String) (m : Payload)
  | reply (m : Payload)
  | closeConn (target : String)
deriving DecidableEq, Repr

/-- Room.broadcast(message, exclude): send to every participant other than
the excluded one whose client_state is CONNECTED; every participant whose
send raised is collected in the dead list and popped afterwards.  The
resulting participant table therefore drops exactly the non-excluded
entries whose socket is broken. -/
def Room.broadcast (r : Room) (message : Payload)
    (exclude : Option String := none) : Room × List OutMsg :=
  let alive := r.participants.filter
    (fun kv => decide (some kv.1 = exclude ∨ kv.2.ws ≠ WsState.broken))
  ({ r with participants := alive }, [OutMsg.broadcastMsg message exclude])

/-- Room.send_to(target_id, message): look the target up in participants
and then in the waiting room; deliver when the socket is CONNECTED; when
the send raises, pop the target from both tables; when the target is
absent or its state is not CONNECTED, do nothing. -/
def Room.send_to (r : Room) (target_id : String) (message : Payload) :
    Room × List OutMsg :=
  match (dictGet r.participants target_id).orElse
      (fun _ => dictGet r.waiting_room target_id) with
  | none => (r, [])
  | some p =>
    match p.ws with
    | WsState.connected => (r, [OutMsg.sentTo target_id message])
    | WsState.closed => (r, [])
    | WsState.broken =>
      ({ r with
          participants := dictPop r.participants target_id,
          waiting_room := dictPop r.waiting_room target_id }, [])

/-- Python list slicing l[-n:], used for the chat-history tail. -/
def lastN {α : Type} (n : Nat) (l : List α) : List α :=
  l.drop (l.length - n)

/-- Lookup with an optional key: data.get(field) may be None, and
d.get(None) is None on these string-keyed dictionaries. -/
def dictGetOpt {α : Type} (d : List (String × α)) (k : Option String) :
    Option α :=
  k.bind (dictGet d)

/-- One entry of the rooms list of a create-breakout message:
br.get(name) and br.get(members, []). -/
structure BreakoutReq where
  name : Option String
  members : List String
deriving DecidableEq, Repr

/-- The action field of a host-action message, with the fields each
branch reads.  Missing JSON fields surface as none. -/
inductive HostAction where
  | muteAll
  | muteUser (target_user : Option String)
  | removeUser (target_user : Option String)
  | lockMeeting (locked : Option Bool)
  | toggleWaitingRoom (enabled : Option Bool)
  | admitUser (target_user : Option String)
  | rejectUser (target_user : Option String)
  | lowerAllHands
  | toggleRecording (recording : Option Bool)
  | endMeeting
  | otherAction
deriving DecidableEq, Repr

/-- A parsed inbound message, one constructor per msg_type branch of the
handler loop.  Fields with static defaults (chat message, emoji, stroke
attributes, option_index) carry the resolved value; fields whose default
depends on current state (raised, locked, enabled, recording) or whose
presence matters (media flags) carry an Option. -/
inductive Event where
  | offer (target : String) (offer : String)
  | answer (target : String) (answer : String)
  | iceCandidate (target : String) (candidate : String)
  | chat (message : String) (is_file : Bool) (file_name : Option String)
      (file_url : Option String)
  | mediaState (video audio screen bg_blur : Option Bool)
  | raiseHand (raised : Option Bool)
  | reaction (emoji : String)
  | hostAction (a : HostAction)
  | whiteboardStroke (points : List (Int × Int)) (color : String)
      (width : Nat) (tool : String)
  | whiteboardClear
  | createPoll (question : String) (options : List String)
  | votePoll (poll_id : Option String) (option_index : Int)
  | endPoll (poll_id : Option String)
  | createBreakout (reqs : List BreakoutReq)
  | closeBreakout
  | ping
  | otherEvent
deriving DecidableEq, Repr

/-- Result of handling one inbound message: the room state afterwards,
the reified outbound I/O, and whether the handler returned because the
meeting was ended (the room having been removed from the registry). -/
structure StepResult where
  room : Room
  msgs : List OutMsg
  ended : Bool := false
deriving DecidableEq, Repr

/-- Lines 450 to 454: after every host-action branch except end-meeting,
the handler sends the host the updated waiting list. -/
def afterAction (r : Room) (ms : List OutMsg) : StepResult :=
  let (r1, ms1) := r.send_to r.host_id
    (Payload.waitingRoomUpdate r.get_waiting_list)
  { room := r1, msgs := ms ++ ms1 }

/-- The inner for-loop of the create-breakout branch: assign the breakout
room name to every listed member that is currently a participant. -/
def assignMembers (ps : List (String × Participant)) (name : String) :
    List String → List (String × Participant)
  | [] => ps
  | mid :: rest =>
    let ps1 :=
      match dictGet ps mid with
      | some p => dictSet ps mid { p with breakout_room := some name }
      | none => ps
    assignMembers ps1 name rest

/-- The outer for-loop of the create-breakout branch: record each
requested room in breakout_rooms (defaulting a missing name from the
current table size) and tag its members. -/
def applyBreakout (r : Room) : List BreakoutReq → Room
  | [] => r
  | br :: rest =>
    let name := br.name.getD ("Room " ++ toString (r.breakout_rooms.length + 1))
    let members := br.members
    let r1 := { r with
      breakout_rooms := dictSet r.breakout_rooms name members,
      participants := assignMembers r.participants name members }
    applyBreakout r1 rest

/-- The host-action dispatch (lines 322 to 454), reached only when the
sender is the current host. -/
def hostStep (r : Room) (room_id _user_id : String) : HostAction → StepResult
  | HostAction.muteAll =>
    let ps := r.participants.map (fun kv =>
      if kv.2.user_id = r.host_id then kv
      else (kv.1, { kv.2 with audio_on := false }))
    let r1 := { r with participants := ps }
    let (r2, ms) := r1.broadcast (Payload.hostMuteAll r1.get_participant_list)
    afterAction r2 ms
  | HostAction.muteUser target_user =>
    match dictGetOpt r.participants target_user, target_user with
    | some p, some target =>
      let r1 := { r with
        participants := dictSet r.participants target
          { p with audio_on := false } }
      let (r2, ms1) := r1.send_to target Payload.forceMute
      let (r3, ms2) := r2.broadcast
        (Payload.mediaState target none (some false) none none)
      afterAction r3 (ms1 ++ ms2)
    | _, _ => afterAction r []
  | HostAction.removeUser target_user =>
    match dictGetOpt r.participants target_user, target_user with
    | some tp, some target =>
      let (r1, ms1) := r.send_to target Payload.removedNotice
      let ms2 := [OutMsg.closeConn target]
      let r2 := { r1 with participants := dictPop r1.participants target }
      let (r3, ms3) := r2.broadcast
        (Payload.userLeft target tp.display_name r2.get_participant_list)
      afterAction r3 (ms1 ++ ms2 ++ ms3)
    | _, _ => afterAction r []
  | HostAction.lockMeeting locked =>
    let r1 := { r with locked := locked.getD (!r.locked) }
    let (r2, ms) := r1.broadcast (Payload.settingsUpdate r1.get_settings)
    afterAction r2 ms
  | HostAction.toggleWaitingRoom enabled =>
    let r1 := { r with
      waiting_room_enabled := enabled.getD (!r.waiting_room_enabled) }
    let (r2, ms) := r1.broadcast (Payload.settingsUpdate r1.get_settings)
    afterAction r2 ms
  | HostAction.admitUser target_user =>
    match dictGetOpt r.waiting_room target_user, target_user with
    | some wp, some target =>
      let r1 := { r with
        waiting_room := dictPop r.waiting_room target,
        participants := dictSet r.participants target wp }
      let (r2, ms1) := r1.send_to target
        (Payload.admitted room_id r1.get_participant_list
          (lastN 100 r1.chat_history) r1.whiteboard_strokes
          (r1.polls.map (fun kv => (kv.1, kv.2.to_dict)))
          r1.get_settings false)
      let (r3, ms2) := r2.broadcast
        (Payload.userJoined target wp.display_name r2.get_participant_list)
        (some target)
      afterAction r3 (ms1 ++ ms2)
    | _, _ => afterAction r []
  | HostAction.rejectUser target_user =>
    match dictGetOpt r.waiting_room target_user, target_user with
    | some _, some target =>
      let r1 := { r with waiting_room := dictPop r.waiting_room target }
      let (r2, ms1) := r1.send_to target Payload.rejectedNotice
      afterAction r2 (ms1 ++ [OutMsg.closeConn target])
    | _, _ => afterAction r []
  | HostAction.lowerAllHands =>
    let ps := r.participants.map (fun kv =>
      (kv.1, { kv.2 with hand_raised := false }))
    let r1 := { r with participants := ps }
    let (r2, ms) := r1.broadcast
      (Payload.allHandsLowered r1.get_participant_list)
    afterAction r2 ms
  | HostAction.toggleRecording recording =>
    let r1 := { r with recording := recording.getD (!r.recording) }
    let (r2, ms) := r1.broadcast (Payload.recordingState r1.recording)
    afterAction r2 ms
  | HostAction.endMeeting =>
    let (r1, ms1) := r.broadcast Payload.meetingEnded
    let ms2 := r1.participants.map (fun kv => OutMsg.closeConn kv.1)
    { room := r1, msgs := ms1 ++ ms2, ended := true }
  | HostAction.otherAction => afterAction r []

/-- One iteration of the message loop (lines 247 to 536): dispatch on the
parsed message type.  now is the wall-clock timestamp of this iteration;
fresh is the uuid prefix that a create-poll would draw. -/
def step (r : Room) (room_id user_id display_name : String) (now : Nat)
    (fresh : String) : Event → StepResult
  | Event.offer target offer =>
    let (r1, ms) := r.send_to target
      (Payload.offerMsg offer user_id display_name)
    { room := r1, msgs := ms }
  | Event.answer target answer =>
    let (r1, ms) := r.send_to target (Payload.answerMsg answer user_id)
    { room := r1, msgs := ms }
  | Event.iceCandidate target candidate =>
    let (r1, ms) := r.send_to target (Payload.iceMsg candidate user_id)
    { room := r1, msgs := ms }
  | Event.chat message is_file file_name file_url =>
    let m : ChatMsg :=
      { user_id := user_id, display_name := display_name, message := message,
        timestamp := now, is_file := is_file, file_name := file_name,
        file_url := file_url }
    let r1 := { r with chat_history := r.chat_history ++ [m] }
    let (r2, ms) := r1.broadcast (Payload.chatEcho m)
    { room := r2, msgs := ms }
  | Event.mediaState video audio screen bg_blur =>
    let r1 :=
      match dictGet r.participants user_id with
      | some p =>
        let p1 := { p with
          video_on := video.getD p.video_on,
          audio_on := audio.getD p.audio_on,
          screen_sharing := screen.getD p.screen_sharing,
          bg_blurred := bg_blur.getD p.bg_blurred }
        { r with participants := dictSet r.participants user_id p1 }
      | none => r
    let (r2, ms) := r1.broadcast
      (Payload.mediaState user_id video audio screen bg_blur) (some user_id)
    { room := r2, msgs := ms }
  | Event.raiseHand raised =>
    match dictGet r.participants user_id with
    | some p =>
      let p1 := { p with hand_raised := raised.getD (!p.hand_raised) }
      let r1 := { r with participants := dictSet r.participants user_id p1 }
      let (r2, ms) := r1.broadcast
        (Payload.handRaised user_id display_name p1.hand_raised
          r1.get_participant_list)
      { room := r2, msgs := ms }
    | none => { room := r, msgs := [] }
  | Event.reaction emoji =>
    let (r1, ms) := r.broadcast
      (Payload.reactionMsg user_id display_name emoji)
    { room := r1, msgs := ms }
  | Event.hostAction a =>
    if user_id = r.host_id then
      hostStep r room_id user_id a
    else { room := r, msgs := [] }
  | Event.whiteboardStroke points color width tool =>
    let s : Stroke :=
      { user_id := user_id, points := points, color := color,
        width := width, tool := tool }
    let r1 := { r with whiteboard_strokes := r.whiteboard_strokes ++ [s] }
    let (r2, ms) := r1.broadcast (Payload.whiteboardStrokeMsg s) (some user_id)
    { room := r2, msgs := ms }
  | Event.whiteboardClear =>
    let r1 := { r with whiteboard_strokes := [] }
    let (r2, ms) := r1.broadcast Payload.whiteboardClearMsg
    { room := r2, msgs := ms }
  | Event.createPoll question options =>
    let poll : Poll :=
      { poll_id := fresh, question := question, options := options,
        creator := user_id, votes := [], active := true, created_at := now }
    let r1 := { r with polls := dictSet r.polls fresh poll }
    let (r2, ms) := r1.broadcast (Payload.pollCreated poll.to_dict)
    { room := r2, msgs := ms }
  | Event.votePoll poll_id option_index =>
    match poll_id with
    | some pid =>
      match dictGet r.polls pid with
      | some poll =>
        if poll.active then
          let poll1 :=
            { poll with votes := dictSet poll.votes user_id option_index }
          let r1 := { r with polls := dictSet r.polls pid poll1 }
          let (r2, ms) := r1.broadcast (Payload.pollUpdated poll1.to_dict)
          { room := r2, msgs := ms }
        else { room := r, msgs := [] }
      | none => { room := r, msgs := [] }
    | none => { room := r, msgs := [] }
  | Event.endPoll poll_id =>
    match poll_id with
    | some pid =>
      match dictGet r.polls pid with
      | some poll =>
        if user_id = r.host_id ∨ user_id = poll.creator then
          let poll1 := { poll with active := false }
          let r1 := { r with polls := dictSet r.polls pid poll1 }
          let (r2, ms) := r1.broadcast (Payload.pollEnded poll1.to_dict)
          { room := r2, msgs := ms }
        else { room := r, msgs := [] }
      | none => { room := r, msgs := [] }
    | none => { room := r, msgs := [] }
  | Event.createBreakout reqs =>
    if user_id = r.host_id then
      let r1 := applyBreakout { r with breakout_rooms := [] } reqs
      let (r2, ms) := r1.broadcast
        (Payload.breakoutUpdate r1.breakout_rooms r1.get_participant_list)
      { room := r2, msgs := ms }
    else { room := r, msgs := [] }
  | Event.closeBreakout =>
    if user_id = r.host_id then
      let ps := r.participants.map (fun kv =>
        (kv.1, { kv.2 with breakout_room := none }))
      let r1 := { r with breakout_rooms := [], participants := ps }
      let (r2, ms) := r1.broadcast
        (Payload.breakoutClosed r1.get_participant_list)
      { room := r2, msgs := ms }
    else { room := r, msgs := [] }
  | Event.ping => { room := r, msgs := [OutMsg.reply Payload.pong] }
  | Event.otherEvent => { room := r, msgs := [] }

/-- Result of the finally block: the room afterwards, the outbound I/O,
and whether the room was popped from the registry because its
participant table ended up empty. -/
structure CleanupResult where
  room : Room
  msgs : List OutMsg
  destroyed : Bool
deriving DecidableEq, Repr

/-- The finally block of the handler (lines 542 to 566): remove the
leaving session; if it was the host and participants remain, promote
next(iter(participants)) — the first key in insertion order — and
broadcast host-changed; always broadcast user-left; destroy the room
when the table is empty afterwards. -/
def disconnect_cleanup (r : Room) (user_id display_name : String) :
    CleanupResult :=
  let r1 := { r with participants := dictPop r.participants user_id }
  let (r2, ms1) :=
    if user_id = r1.host_id ∧ r1.participants ≠ [] then
      match r1.participants.head? with
      | some kv =>
        let new_host := kv.1
        let r2 := { r1 with host_id := new_host }
        let dn :=
          match dictGet r2.participants new_host with
          | some p => p.display_name
          | none => ""
        r2.broadcast
          (Payload.hostChanged new_host dn r2.get_participant_list
            r2.get_settings)
      | none => (r1, [])
    else (r1, [])
  let (r3, ms2) := r2.broadcast
    (Payload.userLeft user_id display_name r2.get_participant_list)
  { room := r3, msgs := ms1 ++ ms2, destroyed := r3.participants.isEmpty }

/-- A raw inbound frame: either text that json.loads parses into an
event, or text whose parsing (or field access) raises. -/
inductive Raw where
  | malformed
  | valid (e : Event)
deriving DecidableEq, Repr

/-- Result of running the message loop to termination. -/
structure LoopResult where
  room : Room
  msgs : List OutMsg
  destroyed : Bool
deriving DecidableEq, Repr

/-- The message loop plus its except/finally wrapper (lines 246 to 566),
run over a finite trace of inbound frames.  An exhausted trace models the
client disconnecting (WebSocketDisconnect); a malformed frame raises out
of the loop into the except block; both paths then run the finally
cleanup.  After end-meeting the handler returns, and the finally block
still runs on the room object that was already removed from the
registry.  nowAt and freshAt give the timestamp and the fresh uuid of
each loop iteration. -/
def runLoop (room_id user_id display_name : String) (nowAt : Nat → Nat)
    (freshAt : Nat → String) (r : Room) (idx : Nat) :
    List Raw → LoopResult
  | [] =>
    let c := disconnect_cleanup r user_id display_name
    { room := c.room, msgs := c.msgs, destroyed := c.destroyed }
  | Raw.malformed :: _ =>
    let c := disconnect_cleanup r user_id display_name
    { room := c.room, msgs := c.msgs, destroyed := c.destroyed }
  | Raw.valid e :: rest =>
    let res := step r room_id user_id display_name (nowAt idx) (freshAt idx) e
    if res.ended then
      let c := disconnect_cleanup res.room user_id display_name
      { room := c.room, msgs := res.msgs ++ c.msgs, destroyed := true }
    else
      let lr := runLoop room_id user_id display_name nowAt freshAt
        res.room (idx + 1) rest
      { room := lr.room, msgs := res.msgs ++ lr.msgs,
        destroyed := lr.destroyed }

/-- Recognizes the reified form of a host-changed broadcast. -/
def isHostChangedMsg : OutMsg → Bool
  | OutMsg.broadcastMsg (Payload.hostChanged _ _ _ _) _ => true
  | _ => false

/-- The last create-breakout request whose member list names the given
user: the request whose room name their participant record ends up
carrying. -/
def lastReqFor (reqs : List BreakoutReq) (uid : String) :
    Option BreakoutReq :=
  match reqs with
  | [] => none
  | br :: rest =>
    match lastReqFor rest uid with
    | some b => some b
    | none => if uid ∈ br.members then some br else none

/-- The breakout_room field a participant ends up with after a
create-breakout carrying reqs, assuming every request names its room
explicitly: the name of the last request listing them, else the previous
field value. -/
def breakoutFieldAfter (reqs : List BreakoutReq) (k : String)
    (old : Option String) : Option String :=
  match lastReqFor reqs k with
  | some br => br.name
  | none => old

/-- In-range votes of a poll: exactly those its tally loop counts. -/
def in_range_votes (p : Poll) : List (String × Int) :=
  p.votes.filter (fun kv =>
    decide (0 ≤ kv.2 ∧ kv.2 < (p.options.length : Int)))

/-- Participant record with the default flags of Participant.__init__. -/
def mkP (uid dn : String) (w : WsState) (j : Nat) : Participant :=
  { ws := w, user_id := uid, display_name := dn, joined_at := j }

/-- Room whose participant insertion order disagrees with the joined_at
order: c was admitted from the waiting room before b, although b
connected (and got its joined_at stamp) first. -/
def roomC2 : Room :=
  { room_id := "r2", host_id := "h",
    participants :=
      [("h", mkP "h" "H" WsState.connected 0),
       ("c", mkP "c" "C" WsState.connected 2),
       ("b", mkP "b" "B" WsState.connected 1)] }

/-- One-host room used to exercise poll creation. -/
def roomC5 : Room :=
  { room_id := "r5", host_id := "h",
    participants := [("h", mkP "h" "H" WsState.connected 0)] }

/-- Two healthy participants; the handler under test serves b. -/
def roomC7 : Room :=
  { room_id := "r7", host_id := "h",
    participants :=
      [("h", mkP "h" "H" WsState.connected 0),
       ("b", mkP "b" "B" WsState.connected 1)] }

/-- A room with one active participant (the host) and one connected
entrant parked in the waiting room. -/
def roomC8 : Room :=
  { room_id := "r8", host_id := "h",
    participants := [("h", mkP "h" "H" WsState.connected 0)],
    waiting_room := [("w", mkP "w" "W" WsState.connected 1)] }

/-- A room with a standing breakout assignment: participant x sits in
breakout room A, recorded both in the table and in its record. -/
def roomC9 : Room :=
  { room_id := "r9", host_id := "h",
    participants :=
      [("h", mkP "h" "H" WsState.connected 0),
       ("x", { mkP "x" "X" WsState.connected 1 with
                breakout_room := some "A" })],
    breakout_rooms := [("A", ["x"])] }

/-- A poll holding a single vote whose option index 5 is out of range
for its two options. -/
def pollC10 : Poll :=
  { poll_id := "p", question := "q", options := ["yes", "no"],
    creator := "h", votes := [("u", 5)], active := true, created_at := 0 }

/-- An open two-option poll with no votes yet. -/
def pollC6 : Poll :=
  { poll_id := "p6", question := "q6", options := ["a", "b"],
    creator := "u", votes := [], active := true, created_at := 0 }

/-- Room carrying pollC6, with its creator u present. -/
def roomC6 : Room :=
  { room_id := "r6", host_id := "h",
    participants :=
      [("h", mkP "h" "H" WsState.connected 0),
       ("u", mkP "u" "U" WsState.connected 1)],
    polls := [("p6", pollC6)] }

/-- Room carrying pollC10. -/
def roomC10 : Room :=
  { room_id := "ra", host_id := "h",
    participants := [("h", mkP "h" "H" WsState.connected 0)],
    polls := [("p", pollC10)] }

section DictLemmas

variable {α : Type}

theorem dictKeys_nil : dictKeys ([] : List (String × α)) = [] := rfl

theorem dictKeys_cons (k1 : String) (v1 : α) (rest : List (String × α)) :
    dictKeys ((k1, v1) :: rest) = k1 :: dictKeys rest := rfl

theorem mem_dictKeys (d : List (String × α)) (k : String) :
    k ∈ dictKeys d ↔ ∃ v, (k, v) ∈ d := by
  constructor
  · intro h
    obtain ⟨⟨k1, v1⟩, hm, he⟩ := List.mem_map.mp h
    simp only at he
    subst he
    exact ⟨v1, hm⟩
  · rintro ⟨v, hm⟩
    exact List.mem_map.mpr ⟨(k, v), hm, rfl⟩

theorem dictGet_dictSet_self (d : List (String × α)) (k : String) (v : α) :
    dictGet (dictSet d k v) k = some v := by
  induction d with
  | nil => simp [dictSet, dictGet]
  | cons kv rest ih =>
    obtain ⟨k1, v1⟩ := kv
    by_cases h : k1 = k <;> simp [dictSet, dictGet, h, ih]

theorem dictGet_dictSet_ne (d : List (String × α)) (k k2 : String) (v : α)
    (h : k2 ≠ k) : dictGet (dictSet d k v) k2 = dictGet d k2 := by
  have h2 : k ≠ k2 := Ne.symm h
  induction d with
  | nil => simp [dictSet, dictGet, h2]
  | cons kv rest ih =>
    obtain ⟨k1, v1⟩ := kv
    by_cases h1 : k1 = k
    · subst h1
      simp [dictSet, dictGet, h2]
    · by_cases h3 : k1 = k2
      · subst h3
        simp [dictSet, dictGet, h1]
      · simp [dictSet, dictGet, h1, h3, ih]

theorem dictGet_mem (d : List (String × α)) (k : String) (v : α)
    (h : dictGet d k = some v) : (k, v) ∈ d := by
  induction d with
  | nil => simp [dictGet] at h
  | cons kv rest ih =>
    obtain ⟨k1, v1⟩ := kv
    by_cases h1 : k1 = k
    · subst h1
      simp [dictGet] at h
      simp [h]
    · simp [dictGet, h1] at h
      simp [ih h]

theorem mem_dictKeys_of_get (d : List (String × α)) (k : String) (v : α)
    (h : dictGet d k = some v) : k ∈ dictKeys d :=
  (mem_dictKeys d k).mpr ⟨v, dictGet_mem d k v h⟩

theorem dictGet_eq_none_of_not_mem (d : List (String × α)) (k : String)
    (h : k ∉ dictKeys d) : dictGet d k = none := by
  induction d with
  | nil => simp [dictGet]
  | cons kv rest ih =>
    obtain ⟨k1, v1⟩ := kv
    rw [dictKeys_cons] at h
    simp only [List.mem_cons, not_or] at h
    have h1 : k1 ≠ k := Ne.symm h.1
    simp [dictGet, h1, ih h.2]

theorem dictKeys_dictSet_mem (d : List (String × α)) (k : String) (v : α)
    (h : k ∈ dictKeys d) : dictKeys (dictSet d k v) = dictKeys d := by
  induction d with
  | nil => simp [dictKeys] at h
  | cons kv rest ih =>
    obtain ⟨k1, v1⟩ := kv
    by_cases h1 : k1 = k
    · simp [dictSet, h1, dictKeys_cons]
    · rw [dictKeys_cons] at h
      simp only [List.mem_cons] at h
      rcases h with h | h
    <;> first
      | exact absurd h.symm h1
      | simp [dictSet, h1, dictKeys_cons, ih h]

theorem dictKeys_dictSet_not_mem (d : List (String × α)) (k : String)
    (v : α) (h : k ∉ dictKeys d) :
    dictKeys (dictSet d k v) = dictKeys d ++ [k] := by
  induction d with
  | nil => simp [dictSet, dictKeys]
  | cons kv rest ih =>
    obtain ⟨k1, v1⟩ := kv
    rw [dictKeys_cons] at h
    simp only [List.mem_cons, not_or] at h
    have h1 : k1 ≠ k := Ne.symm h.1
    simp [dictSet, h1, dictKeys_cons, ih h.2]

end DictLemmas

section RoomLemmas

theorem broadcast_msgs (r : Room) (m : Payload) (ex : Option String) :
    (r.broadcast m ex).2 = [OutMsg.broadcastMsg m ex] := rfl

theorem send_to_eq_of_absent (r : Room) (t : String) (m : Payload)
    (h1 : dictGet r.participants t = none)
    (h2 : dictGet r.waiting_room t = none) :
    r.send_to t m = (r, []) := by
  simp [Room.send_to, h1, h2, Option.orElse]

end RoomLemmas

/-- C3: processing a host-action event whose sender is not the current
host of the room leaves the entire room state unchanged and emits no
outbound message at all — the event falls through every branch of the
dispatch because the host check sits in the branch condition itself. -/
theorem claim_nonhost_host_action_noop (r : Room)
    (room_id user_id display_name : String) (now : Nat) (fresh : String)
    (a : HostAction) (h : user_id ≠ r.host_id) :
    step r room_id user_id display_name now fresh (Event.hostAction a)
      = { room := r, msgs := [], ended := false } := by
  simp [step, h]

/-- C3 witness: a non-host issuing mute-all in a concrete two-person
room changes nothing and sends nothing. -/
theorem claim_nonhost_host_action_noop_witness :
    ("b" : String) ≠ roomC7.host_id ∧
      step roomC7 "r7" "b" "B" 0 "f" (Event.hostAction HostAction.muteAll)
        = { room := roomC7, msgs := [], ended := false } :=
  ⟨by decide,
    claim_nonhost_host_action_noop roomC7 "r7" "b" "B" 0 "f"
      HostAction.muteAll (by decide)⟩

/-- C5 counterexample: a create-poll event carrying a single option —
fewer than the two the claim says are required — is not rejected: the
poll is stored in the room and a poll-created broadcast is emitted. -/
theorem claim_create_poll_cex :
    (step roomC5 "r5" "h" "H" 3 "pid"
        (Event.createPoll "q" ["only"])).room.polls
      = [("pid", { poll_id := "pid", question := "q", options := ["only"],
                   creator := "h", votes := [], active := true,
                   created_at := 3 })] ∧
    (step roomC5 "r5" "h" "H" 3 "pid"
        (Event.createPoll "q" ["only"])).msgs ≠ [] := by
  decide

/-- C5 amended: a create-poll event with any option list — the handler
performs no minimum-option validation — stores a fresh poll with an
empty vote map and broadcasts it with a zero-filled tally, one zero per
option, and a total of zero votes. -/
theorem claim_create_poll_amended (r : Room)
    (room_id user_id display_name : String) (now : Nat) (fresh : String)
    (q : String) (opts : List String) :
    dictGet (step r room_id user_id display_name now fresh
        (Event.createPoll q opts)).room.polls fresh
      = some { poll_id := fresh, question := q, options := opts,
               creator := user_id, votes := [], active := true,
               created_at := now } ∧
    (step r room_id user_id display_name now fresh
        (Event.createPoll q opts)).msgs
      = [OutMsg.broadcastMsg (Payload.pollCreated
          { poll_id := fresh, question := q, options := opts,
            vote_counts := List.replicate opts.length 0, total_votes := 0,
            active := true, creator := user_id, created_at := now }) none] := by
  constructor <;>
    simp [step, Room.broadcast, Poll.to_dict, Poll.vote_counts,
      dictGet_dictSet_self]

/-- C8 counterexample: an offer whose target sits in the waiting room —
not in the participants table — is not dropped: send_to also searches
the waiting room and delivers the offer to the entrant. -/
theorem claim_signal_drop_cex :
    dictGet roomC8.participants "w" = none ∧
    (step roomC8 "r8" "h" "H" 0 "f" (Event.offer "w" "sdp")).msgs
      = [OutMsg.sentTo "w" (Payload.offerMsg "sdp" "h" "H")] ∧
    (step roomC8 "r8" "h" "H" 0 "f" (Event.offer "w" "sdp")).room
      = roomC8 := by
  decide

/-- C8 amended: an offer, answer or ice-candidate whose target is in
neither the participants table nor the waiting room is silently dropped:
nothing is delivered, no error goes back to the sender, and the room is
unchanged.  A target in the waiting room, by contrast, does receive the
signal (see the counterexample). -/
theorem claim_signal_drop_amended (r : Room)
    (room_id user_id display_name : String) (now : Nat) (fresh : String)
    (t payload : String)
    (h1 : dictGet r.participants t = none)
    (h2 : dictGet r.waiting_room t = none) :
    step r room_id user_id display_name now fresh (Event.offer t payload)
      = { room := r, msgs := [], ended := false } ∧
    step r room_id user_id display_name now fresh (Event.answer t payload)
      = { room := r, msgs := [], ended := false } ∧
    step r room_id user_id display_name now fresh
        (Event.iceCandidate t payload)
      = { room := r, msgs := [], ended := false } := by
  have hs : ∀ m : Payload, r.send_to t m = (r, []) :=
    fun m => send_to_eq_of_absent r t m h1 h2
  refine ⟨?_, ?_, ?_⟩ <;> simp [step, hs]

/-- C8 witness: signaling at the absent target z in a concrete room is
dropped entirely. -/
theorem claim_signal_drop_amended_witness :
    step roomC8 "r8" "h" "H" 0 "f" (Event.offer "z" "sdp")
      = { room := roomC8, msgs := [], ended := false } :=
  (claim_signal_drop_amended roomC8 "r8" "h" "H" 0 "f" "z" "sdp"
    (by decide) (by decide)).1

section TallyLemmas

theorem sum_set_getD (l : List Nat) (i : Nat) (h : i < l.length) :
    (l.set i (l.getD i 0 + 1)).sum = l.sum + 1 := by
  induction l generalizing i with
  | nil => simp at h
  | cons a t ih =>
    cases i with
    | zero =>
      simp only [List.set, List.getD_cons_zero, List.sum_cons]
      omega
    | succ n =>
      have hn : n < t.length := by simpa using h
      simp only [List.set, List.getD_cons_succ, List.sum_cons]
      rw [ih n hn]
      omega

theorem voteFold_sum (n : Nat) (votes : List (String × Int))
    (acc : List Nat) (h : acc.length = n) :
    (votes.foldl (fun acc2 kv =>
        if 0 ≤ kv.2 ∧ kv.2 < (n : Int) then
          acc2.set kv.2.toNat (acc2.getD kv.2.toNat 0 + 1)
        else acc2) acc).sum
      = acc.sum + (votes.filter (fun kv =>
          decide (0 ≤ kv.2 ∧ kv.2 < (n : Int)))).length := by
  induction votes generalizing acc with
  | nil => simp
  | cons kv rest ih =>
    by_cases hc : 0 ≤ kv.2 ∧ kv.2 < (n : Int)
    · have hlt : kv.2.toNat < acc.length := by
        rw [h]
        omega
      rw [List.foldl_cons, if_pos hc,
        ih _ (by rw [List.length_set]; exact h), sum_set_getD _ _ hlt]
      simp [List.filter_cons, hc]
      omega
    · rw [List.foldl_cons, if_neg hc, ih _ h]
      simp [List.filter_cons, hc]

theorem vote_counts_sum (p : Poll) :
    (Poll.vote_counts p).sum = (in_range_votes p).length := by
  unfold Poll.vote_counts in_range_votes
  rw [voteFold_sum p.options.length p.votes _ (List.length_replicate _ _)]
  simp

theorem dictSet_dictSet_self {α : Type} (d : List (String × α))
    (k : String) (a b : α) :
    dictSet (dictSet d k a) k b = dictSet d k b := by
  induction d with
  | nil => simp [dictSet]
  | cons kv rest ih =>
    obtain ⟨k1, v1⟩ := kv
    by_cases h1 : k1 = k <;> simp [dictSet, h1, ih]

theorem filter_key_length_eq_count {α : Type} (d : List (String × α))
    (u : String) :
    (d.filter (fun kv => decide (kv.1 = u))).length = (dictKeys d).count u := by
  induction d with
  | nil => simp [dictKeys]
  | cons kv rest ih =>
    obtain ⟨k1, v1⟩ := kv
    by_cases h1 : k1 = u <;>
      simp [List.filter_cons, dictKeys_cons, List.count_cons, h1, ih]

end TallyLemmas

/-- C10: the derived tally of a poll counts only the stored votes whose
option index is in range for the options list, while total_votes counts
every stored vote, so the tally sum never exceeds and can fall short of
total_votes; a vote-poll event on an active poll stores any option
index, in range or not, without faulting; and the concrete poll pollC10
exhibits a tally sum strictly below its total_votes.  All embedded
computations are total, so no stored index can make the tally fault. -/
theorem claim_tally_out_of_range :
    (∀ p : Poll,
        p.to_dict.vote_counts.sum = (in_range_votes p).length ∧
        p.to_dict.total_votes = p.votes.length ∧
        p.to_dict.vote_counts.sum ≤ p.to_dict.total_votes) ∧
    (∀ (r : Room) (room_id uid dn : String) (now : Nat) (fresh : String)
        (pid : String) (poll : Poll) (idx : Int),
        dictGet r.polls pid = some poll → poll.active = true →
        dictGet (step r room_id uid dn now fresh
            (Event.votePoll (some pid) idx)).room.polls pid
          = some { poll with votes := dictSet poll.votes uid idx }) ∧
    pollC10.to_dict.vote_counts.sum < pollC10.to_dict.total_votes := by
  refine ⟨?_, ?_, ?_⟩
  · intro p
    refine ⟨by simpa [Poll.to_dict] using vote_counts_sum p, rfl, ?_⟩
    have h1 : (in_range_votes p).length ≤ p.votes.length :=
      List.length_filter_le _ _
    simp only [Poll.to_dict]
    rw [vote_counts_sum p]
    exact h1
  · intro r room_id uid dn now fresh pid poll idx hg ha
    simp [step, hg, ha, Room.broadcast, dictGet_dictSet_self]
  · decide

/-- C10 witness: voting with the out-of-range index 7 on the concrete
active poll stores the vote. -/
theorem claim_tally_out_of_range_witness :
    dictGet (step roomC10 "ra" "u2" "U" 9 "f"
        (Event.votePoll (some "p") 7)).room.polls "p"
      = some { pollC10 with votes := dictSet pollC10.votes "u2" 7 } :=
  claim_tally_out_of_range.2.1 roomC10 "ra" "u2" "U" 9 "f" "p" pollC10 7
    (by decide) (by decide)

/-- C6: on an active poll, a second vote from the same participant
overwrites the first — voting A then B leaves the votes map equal to a
single assignment of B for that participant, with exactly one entry for
them and every other entry untouched; on a closed poll (as end-poll by
the host or the creator produces, final conjunct) a vote-poll event is
silently rejected: no state change and no outbound message. -/
theorem claim_vote_semantics (r : Room) (room_id uid dn : String)
    (now1 now2 : Nat) (f1 f2 : String) (pid : String) (poll : Poll)
    (hg : dictGet r.polls pid = some poll) :
    (poll.active = true → (dictKeys poll.votes).Nodup →
      ∀ a b : Int,
        dictGet (step (step r room_id uid dn now1 f1
            (Event.votePoll (some pid) a)).room room_id uid dn now2 f2
            (Event.votePoll (some pid) b)).room.polls pid
          = some { poll with votes := dictSet poll.votes uid b } ∧
        dictGet (dictSet poll.votes uid b) uid = some b ∧
        ((dictSet poll.votes uid b).filter
            (fun kv => decide (kv.1 = uid))).length = 1 ∧
        (∀ u2, u2 ≠ uid →
          dictGet (dictSet poll.votes uid b) u2 = dictGet poll.votes u2)) ∧
    (poll.active = false →
      ∀ idx : Int, step r room_id uid dn now1 f1
          (Event.votePoll (some pid) idx)
        = { room := r, msgs := [], ended := false }) ∧
    ((uid = r.host_id ∨ uid = poll.creator) →
      dictGet (step r room_id uid dn now1 f1
          (Event.endPoll (some pid))).room.polls pid
        = some { poll with active := false }) := by
  refine ⟨?_, ?_, ?_⟩
  · intro ha hnd a b
    refine ⟨?_, dictGet_dictSet_self _ _ _, ?_, ?_⟩
    · simp [step, hg, ha, Room.broadcast, dictGet_dictSet_self,
        dictSet_dictSet_self]
    · rw [filter_key_length_eq_count]
      by_cases hm : uid ∈ dictKeys poll.votes
      · rw [dictKeys_dictSet_mem _ _ _ hm]
        exact List.count_eq_one_of_mem hnd hm
      · rw [dictKeys_dictSet_not_mem _ _ _ hm, List.count_append]
        rw [List.count_eq_zero_of_not_mem hm]
        simp
    · intro u2 h2
      exact dictGet_dictSet_ne _ _ _ _ h2
  · intro ha idx
    simp [step, hg, ha]
  · intro hperm
    simp [step, hg, hperm, Room.broadcast, dictGet_dictSet_self]

/-- C6 witness: voting 0 then 1 on the concrete open poll leaves the
single recorded vote 1. -/
theorem claim_vote_semantics_witness :
    dictGet (step (step roomC6 "r6" "u" "U" 1 "fa"
        (Event.votePoll (some "p6") 0)).room "r6" "u" "U" 2 "fb"
        (Event.votePoll (some "p6") 1)).room.polls "p6"
      = some { pollC6 with votes := dictSet pollC6.votes "u" 1 } :=
  ((claim_vote_semantics roomC6 "r6" "u" "U" 1 2 "fa" "fb" "p6" pollC6
    (by decide)).1 (by decide) (by decide) 0 1).1

/-- C7 counterexample: a malformed frame on participant b, followed by a
well-formed chat message, does not merely drop the malformed frame: the
chat is never processed (history stays empty), b is removed from the
room, and outbound messages (a user-left broadcast) are emitted. -/
theorem claim_malformed_cex :
    (runLoop "r7" "b" "B" (fun _ => 0) (fun _ => "f") roomC7 0
        [Raw.malformed, Raw.valid (Event.chat "hi" false none none)]
      ).room.chat_history = [] ∧
    (runLoop "r7" "b" "B" (fun _ => 0) (fun _ => "f") roomC7 0
        [Raw.malformed, Raw.valid (Event.chat "hi" false none none)]
      ).room.participants = [("h", mkP "h" "H" WsState.connected 0)] ∧
    (runLoop "r7" "b" "B" (fun _ => 0) (fun _ => "f") roomC7 0
        [Raw.malformed, Raw.valid (Event.chat "hi" false none none)]
      ).msgs ≠ [] := by
  decide

/-- C7 amended: a malformed inbound frame terminates the session exactly
like a transport disconnect: the loop result is independent of whatever
frames follow the malformed one (they are never processed), and a trace
beginning with a malformed frame behaves identically to the empty trace,
i.e. the disconnect cleanup runs — the participant is removed and a
user-left broadcast is emitted — rather than the message being dropped
with the connection kept open. -/
theorem claim_malformed_amended :
    (∀ (room_id uid dn : String) (nowAt : Nat → Nat)
        (freshAt : Nat → String) (r : Room) (idx : Nat)
        (msgs rest : List Raw),
        runLoop room_id uid dn nowAt freshAt r idx
            (msgs ++ Raw.malformed :: rest)
          = runLoop room_id uid dn nowAt freshAt r idx
              (msgs ++ [Raw.malformed])) ∧
    (∀ (room_id uid dn : String) (nowAt : Nat → Nat)
        (freshAt : Nat → String) (r : Room) (idx : Nat) (rest : List Raw),
        runLoop room_id uid dn nowAt freshAt r idx (Raw.malformed :: rest)
          = runLoop room_id uid dn nowAt freshAt r idx []) := by
  constructor
  · intro room_id uid dn nowAt freshAt r idx msgs rest
    induction msgs generalizing r idx with
    | nil => rfl
    | cons raw tl ih =>
      cases raw with
      | malformed => rfl
      | valid e =>
        simp only [List.cons_append, runLoop]
        cases h : (step r room_id uid dn (nowAt idx) (freshAt idx) e).ended <;>
          simp [h, ih]
  · intro room_id uid dn nowAt freshAt r idx rest
    rfl

/-- C2 counterexample: when the host of roomC2 disconnects, the code
promotes the first remaining participant in dictionary insertion order —
here c, admitted earlier but stamped joined_at 2 — even though the
remaining participant b has the strictly earlier joined_at 1.  The
earliest-joined rule of the claim would pick b. -/
theorem claim_host_failover_cex :
    (disconnect_cleanup roomC2 "h" "H").room.host_id = "c" ∧
    (disconnect_cleanup roomC2 "h" "H").room.participants.map
        (fun kv => (kv.1, kv.2.joined_at)) = [("c", 2), ("b", 1)] ∧
    (disconnect_cleanup roomC2 "h" "H").msgs.countP isHostChangedMsg = 1 := by
  decide

/-- C2 amended: when the host disconnects and participants remain, the
new host is the first remaining participant in insertion order of the
participants dictionary (next(iter(participants))), not the one with the
earliest joined_at; exactly one host-changed event is broadcast, and it
carries the new host id together with the full updated participant list
and settings. -/
theorem claim_host_failover_amended (r : Room) (uid dn : String)
    (k : String) (p : Participant) (tl : List (String × Participant))
    (hhost : uid = r.host_id)
    (hpop : dictPop r.participants uid = (k, p) :: tl) :
    (disconnect_cleanup r uid dn).room.host_id = k ∧
    (disconnect_cleanup r uid dn).msgs.countP isHostChangedMsg = 1 ∧
    (disconnect_cleanup r uid dn).msgs.head?
      = some (OutMsg.broadcastMsg (Payload.hostChanged k p.display_name
          ({ r with participants := (k, p) :: tl, host_id := k } : Room).get_participant_list
          ({ r with participants := (k, p) :: tl, host_id := k } : Room).get_settings) none) := by
  subst hhost
  refine ⟨?_, ?_, ?_⟩ <;>
    simp [disconnect_cleanup, hpop, dictGet, Room.broadcast,
      isHostChangedMsg, List.countP_cons]

/-- C2 witness: applying the amended failover rule to the concrete room
whose insertion order disagrees with the joined_at order. -/
theorem claim_host_failover_amended_witness :
    (disconnect_cleanup roomC2 "h" "H").room.host_id = "c" :=
  (claim_host_failover_amended roomC2 "h" "H" "c"
    (mkP "c" "C" WsState.connected 2)
    [("b", mkP "b" "B" WsState.connected 1)] (by decide) (by decide)).1

section BreakoutLemmas

theorem dictGet_of_mem_nodup {α : Type} (d : List (String × α))
    (k : String) (v : α) (hn : (dictKeys d).Nodup) (hm : (k, v) ∈ d) :
    dictGet d k = some v := by
  induction d with
  | nil => simp at hm
  | cons kv rest ih =>
    obtain ⟨k1, v1⟩ := kv
    rw [dictKeys_cons] at hn
    simp only [List.nodup_cons] at hn
    rcases List.mem_cons.mp hm with he | hm2
    · rw [Prod.mk.injEq] at he
      obtain ⟨rfl, rfl⟩ := he
      simp [dictGet]
    · have hne : k1 ≠ k := by
        intro h1
        subst h1
        exact hn.1 ((mem_dictKeys _ _).mpr ⟨v, hm2⟩)
      simp [dictGet, hne, ih hn.2 hm2]

theorem dictGet_filter_some {α : Type} (d : List (String × α))
    (pred : String × α → Bool) (k : String) (v : α)
    (hn : (dictKeys d).Nodup) (h : dictGet (d.filter pred) k = some v) :
    dictGet d k = some v :=
  dictGet_of_mem_nodup d k v hn (List.mem_of_mem_filter (dictGet_mem _ _ _ h))

theorem assignMembers_get (ps : List (String × Participant)) (n : String)
    (ms : List String) (k : String) :
    dictGet (assignMembers ps n ms) k
      = (dictGet ps k).map (fun p =>
          if k ∈ ms then { p with breakout_room := some n } else p) := by
  induction ms generalizing ps with
  | nil =>
    simp only [assignMembers, List.not_mem_nil, if_false]
    cases dictGet ps k <;> rfl
  | cons m rest ih =>
    simp only [assignMembers]
    cases hg : dictGet ps m with
    | none =>
      simp only [hg]
      rw [ih]
      by_cases hk : k = m
      · subst hk
        simp [hg]
      · simp [hk]
    | some p0 =>
      simp only [hg]
      rw [ih]
      by_cases hk : k = m
      · subst hk
        rw [dictGet_dictSet_self]
        simp only [hg, Option.map_some']
        by_cases hr : k ∈ rest <;> simp [hr]
      · rw [dictGet_dictSet_ne ps m k _ hk]
        simp [hk]

theorem assignMembers_keys (ps : List (String × Participant)) (n : String)
    (ms : List String) :
    dictKeys (assignMembers ps n ms) = dictKeys ps := by
  induction ms generalizing ps with
  | nil => rfl
  | cons m rest ih =>
    simp only [assignMembers]
    cases hg : dictGet ps m with
    | none => simp [hg, ih]
    | some p0 =>
      simp only [hg]
      rw [ih, dictKeys_dictSet_mem _ _ _ (mem_dictKeys_of_get _ _ _ hg)]

theorem applyBreakout_keys (r : Room) (reqs : List BreakoutReq) :
    dictKeys (applyBreakout r reqs).participants
      = dictKeys r.participants := by
  induction reqs generalizing r with
  | nil => rfl
  | cons br rest ih =>
    simp only [applyBreakout]
    rw [ih]
    exact assignMembers_keys _ _ _

theorem lastReqFor_cons (br : BreakoutReq) (rest : List BreakoutReq)
    (k : String) :
    lastReqFor (br :: rest) k
      = match lastReqFor rest k with
        | some b => some b
        | none => if k ∈ br.members then some br else none := rfl

theorem applyBreakout_get (r : Room) (reqs : List BreakoutReq) (k : String)
    (hnames : ∀ br ∈ reqs, br.name ≠ none) :
    dictGet (applyBreakout r reqs).participants k
      = (dictGet r.participants k).map (fun p =>
          { p with breakout_room :=
              breakoutFieldAfter reqs k p.breakout_room }) := by
  induction reqs generalizing r with
  | nil =>
    simp only [applyBreakout, breakoutFieldAfter, lastReqFor]
    cases dictGet r.participants k <;> rfl
  | cons br rest ih =>
    simp only [applyBreakout]
    rw [ih _ (fun b hb => hnames b (List.mem_cons_of_mem _ hb)),
      assignMembers_get]
    obtain ⟨n, hn⟩ : ∃ n, br.name = some n := by
      cases hbn : br.name with
      | none => exact absurd hbn (hnames br (List.mem_cons_self _ _))
      | some n => exact ⟨n, rfl⟩
    cases hg : dictGet r.participants k with
    | none => simp
    | some p =>
      simp only [Option.map_some']
      cases hl : lastReqFor rest k with
      | some b =>
        simp only [breakoutFieldAfter, lastReqFor_cons, hl, hn]
        by_cases hm : k ∈ br.members <;> simp [hm]
      | none =>
        simp only [breakoutFieldAfter, lastReqFor_cons, hl, hn]
        by_cases hm : k ∈ br.members <;> simp [hm, hn]

end BreakoutLemmas

/-- C9 counterexample: the host replaces the standing breakout table of
roomC9 (which put x in room A) with a table that assigns only the host
to room B.  Afterwards no room of the table contains x, yet the
breakout_room field of x still reads A — it is not reset to None as the
claim requires. -/
theorem claim_breakout_cex :
    (step roomC9 "r9" "h" "H" 0 "f"
        (Event.createBreakout
          [{ name := some "B", members := ["h"] }])).room.breakout_rooms
      = [("B", ["h"])] ∧
    (dictGet (step roomC9 "r9" "h" "H" 0 "f"
        (Event.createBreakout
          [{ name := some "B", members := ["h"] }])).room.participants
        "x").map (fun p => p.breakout_room)
      = some (some "A") := by
  decide

/-- C9 amended: close-breakout clears the table and every remaining
participant's breakout_room together; create-breakout sets the field of
every participant named in the new requests to the (explicitly named,
last) request listing them, but a participant absent from every request
keeps their previous breakout_room value instead of having it reset to
None — consistency with the new table is not restored for them. -/
theorem claim_breakout_amended :
    (∀ (r : Room) (room_id uid dn : String) (now : Nat) (fresh : String),
        uid = r.host_id →
        (step r room_id uid dn now fresh
            Event.closeBreakout).room.breakout_rooms = [] ∧
        ∀ kv ∈ (step r room_id uid dn now fresh
            Event.closeBreakout).room.participants,
          kv.2.breakout_room = none) ∧
    (∀ (r : Room) (room_id uid dn : String) (now : Nat) (fresh : String)
        (reqs : List BreakoutReq),
        uid = r.host_id → (dictKeys r.participants).Nodup →
        (∀ br ∈ reqs, br.name ≠ none) →
        ∀ (k : String) (p1 : Participant),
          dictGet (step r room_id uid dn now fresh
              (Event.createBreakout reqs)).room.participants k = some p1 →
          ∃ p, dictGet r.participants k = some p ∧
            p1.breakout_room = breakoutFieldAfter reqs k p.breakout_room) := by
  constructor
  · intro r room_id uid dn now fresh hhost
    constructor
    · simp [step, hhost, Room.broadcast]
    · intro kv hm
      simp only [step, hhost, if_pos rfl, Room.broadcast] at hm
      have hm2 := List.mem_of_mem_filter hm
      obtain ⟨kv0, _, he⟩ := List.mem_map.mp hm2
      rw [← he]
  · intro r room_id uid dn now fresh reqs hhost hnodup hnames k p1 hget
    simp only [step, hhost, if_pos rfl, Room.broadcast] at hget
    have hkeys : (dictKeys (applyBreakout
        { r with breakout_rooms := [] } reqs).participants).Nodup := by
      rw [applyBreakout_keys]
      exact hnodup
    have hget2 := dictGet_filter_some _ _ _ _ hkeys hget
    rw [applyBreakout_get _ _ _ hnames] at hget2
    cases hg : dictGet r.participants k with
    | none =>
      rw [show dictGet ({ r with breakout_rooms := [] } : Room).participants k
        = dictGet r.participants k from rfl, hg] at hget2
      simp at hget2
    | some p =>
      refine ⟨p, rfl, ?_⟩
      rw [show dictGet ({ r with breakout_rooms := [] } : Room).participants k
        = dictGet r.participants k from rfl, hg] at hget2
      simp only [Option.map_some', Option.some.injEq] at hget2
      rw [← hget2]

/-- C9 witness: closing breakouts in the concrete room clears the
table. -/
theorem claim_breakout_amended_witness :
    (step roomC9 "r9" "h" "H" 0 "f"
        Event.closeBreakout).room.breakout_rooms = [] :=
  (claim_breakout_amended.1 roomC9 "r9" "h" "H" 0 "f" (by decide)).1

section InvariantLemmas

end InvariantLemmas

end VideoMeeting
